import Mathlib

set_option autoImplicit false

/-!
Verification development for the NutriGuide API backend (main.py).

The definitions below are a shallow embedding of the Python source:
  - the nutrition table rows (FoodRecord) with the lowercased-and-stripped
    name column added at load time,
  - the exact lookup and the fuzzy lookup (find_food_in_db_fuzzy, with the
    external similarity scorer of thefuzz abstracted as a function
    parameter, since the library is an external collaborator),
  - the meal aggregation loop of the log_meal endpoint,
  - the flat-file JSON log store (get_log / save_log), where the file
    system is modelled by an explicit state (absent, corrupt, or a list of
    entries),
  - the suggest and export_history endpoint handlers.

Python floats are modelled as rationals; machine float rounding plays no
role in the properties proved here.  Python exceptions are modelled by
Except: an endpoint that raises is a run that returns Except.error.
-/

/-- A row of the nutrition table after loading: the original name, the
Food_Item_Lower column (lowercased and stripped at load time), and the
four numeric macro columns. -/
structure FoodRecord where
  food_item : String
  food_item_lower : String
  calories : Rat
  protein_g : Rat
  fat_g : Rat
  carbs_g : Rat
deriving DecidableEq

/-- A JSON value, as far as the endpoints inspect one. -/
inductive JVal where
  | str (s : String)
  | num (q : Rat)
  | null
deriving DecidableEq

/-- Models the Python method str.lower (ASCII case folding, character by
character). -/
def pyLower (s : String) : String :=
  ⟨s.data.map Char.toLower⟩

/-- Models the Python method str.strip with no argument: drop whitespace
from both ends. -/
def pyStrip (s : String) : String :=
  ⟨((s.data.dropWhile Char.isWhitespace).reverse.dropWhile Char.isWhitespace).reverse⟩

/-- Models the Python expression s.replace applied to the one-character
pattern underscore with the one-character replacement space. -/
def replaceUnderscores (s : String) : String :=
  ⟨s.data.map (fun c => if c = '_' then ' ' else c)⟩

/-- Decimal digits to a natural number. -/
def digitsToNat (cs : List Char) : Nat :=
  cs.foldl (fun n c => n * 10 + (c.toNat - 48)) 0

/-- Mantissa of a decimal literal: digits with an optional decimal point,
at least one digit required. Returns the value and the unconsumed rest. -/
def decMantissa (cs : List Char) : Option (Rat × List Char) :=
  let intPart := cs.takeWhile Char.isDigit
  let rest := cs.dropWhile Char.isDigit
  match rest with
  | '.' :: rest2 =>
    let fracPart := rest2.takeWhile Char.isDigit
    let rest3 := rest2.dropWhile Char.isDigit
    if intPart.isEmpty && fracPart.isEmpty then none
    else some ((digitsToNat intPart : Rat)
      + (digitsToNat fracPart : Rat) / ((10 : Rat) ^ fracPart.length), rest3)
  | _ =>
    if intPart.isEmpty then none
    else some ((digitsToNat intPart : Rat), rest)

/-- Optional exponent marker of a decimal literal. -/
def decExponent (cs : List Char) : Option (Int × List Char) :=
  match cs with
  | 'e' :: rest | 'E' :: rest =>
    let afterSign : Rat × List Char :=
      match rest with
      | '+' :: r2 => (1, r2)
      | '-' :: r2 => (-1, r2)
      | r2 => (1, r2)
    let ds := afterSign.2.takeWhile Char.isDigit
    if ds.isEmpty then none
    else
      let mag : Int := (digitsToNat ds : Int)
      some (if afterSign.1 < 0 then -mag else mag, afterSign.2.dropWhile Char.isDigit)
  | _ => some (0, cs)

/-- Scale a mantissa by a power of ten. -/
def applyExp (m : Rat) (e : Int) : Rat :=
  if 0 ≤ e then m * (10 : Rat) ^ e.toNat else m / (10 : Rat) ^ (-e).toNat

/-- Models the Python built-in float() applied to a string, on decimal
literals: optional surrounding whitespace, optional sign, digits with an
optional decimal point, optional exponent.  Returns none when the string
does not convert (float raises ValueError there). -/
def pyFloatOfString (s : String) : Option Rat :=
  let cs := (pyStrip s).data
  let signed : Rat × List Char :=
    match cs with
    | '+' :: r => (1, r)
    | '-' :: r => (-1, r)
    | r => (1, r)
  match decMantissa signed.2 with
  | none => none
  | some (m, rest) =>
    match decExponent rest with
    | none => none
    | some (e, rest2) =>
      if rest2.isEmpty then some (signed.1 * applyExp m e) else none

/-- The Python conversion float(v) on a JSON value: a number is already a
float, a string must convert, null raises TypeError. -/
def pyFloat : JVal → Except String Rat
  | JVal.num q => Except.ok q
  | JVal.str s =>
    match pyFloatOfString s with
    | some q => Except.ok q
    | none => Except.error ("ValueError: could not convert string to float")
  | JVal.null => Except.error ("TypeError: float argument must be a string or a number")

/-- One element of the meal_items list of a log_meal request: a JSON dict
whose item and quantity keys may each be absent. -/
structure MealItemDict where
  item : Option String
  quantity : Option JVal
deriving DecidableEq

/-- The expression item.get with key quantity and integer default 1. -/
def qtyField (it : MealItemDict) : JVal :=
  it.quantity.getD (JVal.num 1)

/-- Running totals of the aggregation loop of log_meal. -/
structure Totals where
  calories : Rat
  protein : Rat
  fat : Rat
  carbs : Rat
deriving DecidableEq

def Totals.zero : Totals := ⟨0, 0, 0, 0⟩

def addTotals (a b : Totals) : Totals :=
  ⟨a.calories + b.calories, a.protein + b.protein, a.fat + b.fat, a.carbs + b.carbs⟩

/-- The state of a flat JSON log file: missing, unreadable as JSON, or a
JSON array of entries. -/
inductive FileState (α : Type) where
  | absent
  | corrupt
  | content (entries : List α)
deriving DecidableEq

/-- get_log: read the whole log; a missing file (FileNotFoundError) or a
corrupt one (JSONDecodeError) degrades to the empty list. -/
def get_log {α : Type} : FileState α → List α
  | FileState.absent => []
  | FileState.corrupt => []
  | FileState.content es => es

/-- save_log: read the current log, append the entry, rewrite the file. -/
def save_log {α : Type} (fs : FileState α) (entry : α) : FileState α :=
  FileState.content (get_log fs ++ [entry])

/-- The exact lookup of the log_meal loop: first table row whose
Food_Item_Lower column equals the lowercased (but NOT stripped) item
name. -/
def lookupExact (records : List FoodRecord) (food_name : String) : Option FoodRecord :=
  records.find? (fun r => r.food_item_lower == pyLower food_name)

/-- Per-macro contribution of one exactly-looked-up name at a quantity:
the matched record scaled by the quantity, or zero when unmatched. -/
def contribution (records : List FoodRecord) (food_name : String) (q : Rat) : Totals :=
  match lookupExact records food_name with
  | some fd => ⟨fd.calories * q, fd.protein_g * q, fd.fat_g * q, fd.carbs_g * q⟩
  | none => Totals.zero

/-- Contribution of one meal_items element, when its fields are usable. -/
def contribItem (records : List FoodRecord) (it : MealItemDict) : Totals :=
  match it.item, pyFloat (qtyField it) with
  | some food_name, Except.ok q => contribution records food_name q
  | some _, Except.error _ => Totals.zero
  | none, _ => Totals.zero

/-- One iteration of the log_meal aggregation loop, in source order:
float() on the quantity first, then the table subscription (TypeError if
the table is not loaded), then food_name.lower() (AttributeError if the
item key was absent), then the exact lookup; an unmatched name leaves the
totals unchanged. -/
def stepItem (df : Option (List FoodRecord)) (acc : Totals) (it : MealItemDict) :
    Except String Totals :=
  match pyFloat (qtyField it) with
  | Except.error e => Except.error e
  | Except.ok q =>
    match df with
    | none => Except.error ("TypeError: NoneType object is not subscriptable")
    | some records =>
      match it.item with
      | none => Except.error ("AttributeError: NoneType object has no attribute lower")
      | some food_name =>
        match lookupExact records food_name with
        | some fd => Except.ok ⟨acc.calories + fd.calories * q, acc.protein + fd.protein_g * q,
            acc.fat + fd.fat_g * q, acc.carbs + fd.carbs_g * q⟩
        | none => Except.ok acc

/-- The for-loop over request.meal_items of the log_meal endpoint. -/
def processItems (df : Option (List FoodRecord)) : Totals → List MealItemDict → Except String Totals
  | acc, [] => Except.ok acc
  | acc, it :: rest =>
    match stepItem df acc it with
    | Except.error e => Except.error e
    | Except.ok acc2 => processItems df acc2 rest

/-- Rounding used by the Python format directive .0f (round half to even). -/
def roundHalfEven (q : Rat) : Int :=
  let f := q.floor
  let r := q - (f : Rat)
  if r < 1 / 2 then f
  else if (1 : Rat) / 2 < r then f + 1
  else if f % 2 = 0 then f else f + 1

/-- The calories figure inside the advice string, formatted with .0f. -/
def formatCalories (q : Rat) : String :=
  let n := roundHalfEven q
  if n = 0 ∧ q < 0 then ("-0") else toString n

/-- The one-line advice string of log_meal. -/
def adviceLine (n : Nat) (cal : Rat) : String :=
  ("Logged ") ++ toString n ++ (" items for a total of ") ++ formatCalories cal
    ++ (" calories. Well done!")

/-- Body of the LogMealRequest pydantic model. -/
structure LogMealRequest where
  user_profile : List (String × JVal)
  quick_check : Bool
  meal_items : List MealItemDict
  image_food_name : Option String
deriving DecidableEq

/-- The JSON body log_meal returns on success. -/
structure LogMealResponse where
  food_name : Option String
  total_calories : Rat
  total_protein : Rat
  total_fat : Rat
  total_carbs : Rat
  advice : String
  meal_breakdown : List MealItemDict
deriving DecidableEq

/-- A persisted JSON dict, as stored in the flat log files. -/
abbrev MealRow := List (String × JVal)

/-- The dict save_log writes for a non-quick-check meal. -/
def mkMealEntry (now : String) (food_name : Option String) (t : Totals) (advice : String) :
    MealRow :=
  [("timestamp", JVal.str now),
   ("food_name", match food_name with | some s => JVal.str s | none => JVal.null),
   ("total_calories", JVal.num t.calories),
   ("total_protein", JVal.num t.protein),
   ("total_fat", JVal.num t.fat),
   ("total_carbs", JVal.num t.carbs),
   ("advice", JVal.str advice)]

/-- The response and resulting store of a successful log_meal run with
aggregated totals t. -/
def mkLogMealOk (req : LogMealRequest) (t : Totals) (store : FileState MealRow) (now : String) :
    LogMealResponse × FileState MealRow :=
  let advice := adviceLine req.meal_items.length t.calories
  (⟨req.image_food_name, t.calories, t.protein, t.fat, t.carbs, advice, req.meal_items⟩,
   if req.quick_check then store else save_log store (mkMealEntry now req.image_food_name t advice))

/-- The log_meal endpoint: aggregate the items, build the advice string,
persist an entry exactly when quick_check is false, return the totals.
now is the timestamp datetime.now().isoformat() would produce. -/
def log_meal_endpoint (df : Option (List FoodRecord)) (now : String)
    (req : LogMealRequest) (store : FileState MealRow) :
    Except String (LogMealResponse × FileState MealRow) :=
  match processItems df Totals.zero req.meal_items with
  | Except.error e => Except.error e
  | Except.ok t => Except.ok (mkLogMealOk req t store now)

/-- The get_meal_history endpoint: the whole meal log. -/
def get_meal_history_endpoint (store : FileState MealRow) : List MealRow :=
  get_log store

/-- Query normalization of find_food_in_db_fuzzy: lowercase, strip
surrounding whitespace, replace underscores with spaces. -/
def normalizeQuery (s : String) : String :=
  replaceUnderscores (pyStrip (pyLower s))

/-- The scan inside thefuzz extractOne: running first maximum of the
scores, replaced only on a strictly greater score (Python max keeps the
first maximal element). -/
def extractOneAux (score : String → String → Nat) (q : String) :
    String × Nat → List String → String × Nat
  | best, [] => best
  | best, c :: cs =>
    extractOneAux score q (if best.2 < score q c then (c, score q c) else best) cs

/-- thefuzz process.extractOne with the similarity scorer abstracted:
the first highest-scoring choice with its score, or none when the choice
list is empty. -/
def extractOne (score : String → String → Nat) (q : String) (choices : List String) :
    Option (String × Nat) :=
  match choices with
  | [] => none
  | c :: cs => some (extractOneAux score q (c, score q c) cs)

/-- find_food_in_db_fuzzy: None when the table is not loaded or the query
is empty; otherwise normalize the query, take the best fuzzy match over
the lowered names, and return its first table row when the score reaches
the threshold (the Python default threshold is 85).  Unpacking the
extractOne result of an empty choice list raises. -/
def find_food_in_db_fuzzy (score : String → String → Nat) (df : Option (List FoodRecord))
    (food_name : String) (threshold : Nat) : Except String (Option FoodRecord) :=
  match df with
  | none => Except.ok none
  | some records =>
    if food_name = "" then Except.ok none
    else
      match extractOne score (normalizeQuery food_name) (records.map (fun r => r.food_item_lower)) with
      | none => Except.error ("TypeError: cannot unpack non-iterable NoneType object")
      | some (best_match, s) =>
        if threshold ≤ s then
          match records.find? (fun r => r.food_item_lower == best_match) with
          | some food_data => Except.ok (some food_data)
          | none => Except.error ("IndexError: single positional indexer is out-of-bounds")
        else Except.ok none

/-- The HTTPException values the handlers raise. -/
structure HTTPException where
  status_code : Nat
  detail : String
deriving DecidableEq

/-- Score every choice against the query, keeping dataset order. -/
def scoreAll (score : String → String → Nat) (q : String) (choices : List String) :
    List (String × Nat) :=
  choices.map (fun c => (c, score q c))

/-- Stable insertion into a descending-by-score list: an element goes
after every earlier element with the same score, as heapq.nlargest does. -/
def insertDesc (x : String × Nat) : List (String × Nat) → List (String × Nat)
  | [] => [x]
  | y :: ys => if y.2 ≤ x.2 then x :: y :: ys else y :: insertDesc x ys

/-- Stable descending sort by score. -/
def sortDesc (l : List (String × Nat)) : List (String × Nat) :=
  l.foldr insertDesc []

/-- thefuzz process.extract with the scorer abstracted: the limit
best-scoring choices, descending, ties in dataset order. -/
def extractMany (score : String → String → Nat) (q : String) (choices : List String)
    (limit : Nat) : List (String × Nat) :=
  (sortDesc (scoreAll score q choices)).take limit

/-- The suggest endpoint: 400 when the table is not loaded or the name is
empty; otherwise the up-to-4 fuzzy candidates scoring at least 75, over
the lowercased query. -/
def suggest_food_endpoint (score : String → String → Nat) (df : Option (List FoodRecord))
    (food_name : String) : Except HTTPException (List String) :=
  match df with
  | none => Except.error ⟨400, "Food name is required."⟩
  | some records =>
    if food_name = "" then Except.error ⟨400, "Food name is required."⟩
    else
      Except.ok (((extractMany score (pyLower food_name)
        (records.map (fun r => r.food_item_lower)) 4).filter (fun p => 75 ≤ p.2)).map
          (fun p => p.1))

/-- A cell of the exported CSV: a stored value, the N/A filler of a column
absent from the whole history, or the blank a missing key leaves in an
existing column. -/
inductive CsvCell where
  | val (v : JVal)
  | na
  | blank
deriving DecidableEq

/-- The fixed column order of export_history. -/
def expected_cols : List String :=
  ["timestamp", "food_name", "quantity", "total_calories", "total_protein",
   "total_fat", "total_carbs", "advice"]

/-- The columns pandas DataFrame builds from a list of dicts: the union of
the keys, in first-appearance order. -/
def historyColumns (history : List MealRow) : List String :=
  history.foldl (fun acc row =>
    row.foldl (fun a kv => if a.contains kv.1 then a else a ++ [kv.1]) acc) []

/-- The cell of one row under one of the expected columns. -/
def cellValue (history : List MealRow) (row : MealRow) (col : String) : CsvCell :=
  match row.lookup col with
  | some v => CsvCell.val v
  | none => if (historyColumns history).contains col then CsvCell.blank else CsvCell.na

/-- The export_history endpoint: 404 on an empty history, else the CSV
table (header and rows) with the fixed 8-column order, missing columns
filled with N/A. -/
def export_history_endpoint (history : List MealRow) :
    Except HTTPException (List String × List (List CsvCell)) :=
  match history with
  | [] => Except.error ⟨404, "No meal history available."⟩
  | _ => Except.ok (expected_cols, history.map (fun row => expected_cols.map (cellValue history row)))

/-- Boolean run check for Except values. -/
def isOkB {ε α : Type} : Except ε α → Bool
  | Except.ok _ => true
  | Except.error _ => false

/-- A meal_items element whose item key is present and whose quantity
value float() accepts. -/
def wellFormedItem (it : MealItemDict) : Bool :=
  it.item.isSome && isOkB (pyFloat (qtyField it))

/-- A concrete nutrition row used to instantiate the theorems. -/
def riceRec : FoodRecord :=
  ⟨"Rice", "rice", 130, 3, 1, 28⟩

/-- A one-row nutrition table. -/
def tableRice : List FoodRecord := [riceRec]

/-- A concrete similarity scorer used to instantiate the theorems: 100 on
equal strings, 0 otherwise. -/
def eqScore (a b : String) : Nat := if a = b then 100 else 0

/-! Helper lemmas about the log store and the aggregation loop. -/

@[simp] theorem addTotals_zero (a : Totals) : addTotals a Totals.zero = a := by
  cases a; simp [addTotals, Totals.zero]

@[simp] theorem get_log_save_log {α : Type} (fs : FileState α) (e : α) :
    get_log (save_log fs e) = get_log fs ++ [e] := rfl

theorem get_log_foldl_save {α : Type} :
    ∀ (entries : List α) (fs : FileState α),
      get_log (entries.foldl save_log fs) = get_log fs ++ entries := by
  intro entries
  induction entries with
  | nil => intro fs; simp
  | cons e es ih =>
    intro fs
    rw [List.foldl_cons, ih, get_log_save_log, List.append_assoc]
    rfl

theorem stepItem_err_of_item_none (df : Option (List FoodRecord)) (acc : Totals)
    (it : MealItemDict) (h : it.item = none) :
    ∃ e, stepItem df acc it = Except.error e := by
  cases hq : pyFloat (qtyField it) with
  | error e => exact ⟨e, by simp [stepItem, hq]⟩
  | ok q =>
    cases df with
    | none =>
      exact ⟨"TypeError: NoneType object is not subscriptable", by simp [stepItem, hq]⟩
    | some records =>
      exact ⟨"AttributeError: NoneType object has no attribute lower", by simp [stepItem, hq, h]⟩

theorem stepItem_err_of_bad_qty (df : Option (List FoodRecord)) (acc : Totals)
    (it : MealItemDict) (e : String) (h : pyFloat (qtyField it) = Except.error e) :
    stepItem df acc it = Except.error e := by
  simp [stepItem, h]

theorem processItems_err_of_mem (df : Option (List FoodRecord)) (it0 : MealItemDict)
    (hbad : ∀ acc, ∃ e, stepItem df acc it0 = Except.error e) :
    ∀ (l : List MealItemDict), it0 ∈ l → ∀ acc, ∃ e, processItems df acc l = Except.error e := by
  intro l
  induction l with
  | nil => intro h; cases h
  | cons x xs ih =>
    intro hmem acc
    rcases List.mem_cons.1 hmem with h1 | h2
    · obtain ⟨e, he⟩ := hbad acc
      rw [h1] at he
      exact ⟨e, by simp [processItems, he]⟩
    · cases hs : stepItem df acc x with
      | error e => exact ⟨e, by simp [processItems, hs]⟩
      | ok acc2 =>
        obtain ⟨e, he⟩ := ih h2 acc2
        exact ⟨e, by simp [processItems, hs, he]⟩

theorem stepItem_wf_ok (records : List FoodRecord) (acc : Totals) (it : MealItemDict)
    (h : wellFormedItem it = true) :
    stepItem (some records) acc it = Except.ok (addTotals acc (contribItem records it)) := by
  rw [wellFormedItem, Bool.and_eq_true] at h
  obtain ⟨h1, h2⟩ := h
  cases hi : it.item with
  | none => rw [hi] at h1; simp at h1
  | some name =>
    cases hq : pyFloat (qtyField it) with
    | error e => rw [hq] at h2; simp [isOkB] at h2
    | ok q =>
      cases hl : lookupExact records name with
      | some fd =>
        simp [stepItem, hq, hi, hl, contribItem, contribution, addTotals]
      | none =>
        cases acc
        simp [stepItem, hq, hi, hl, contribItem, contribution, addTotals, Totals.zero]

theorem processItems_wf_ok (records : List FoodRecord) :
    ∀ (l : List MealItemDict), (∀ it ∈ l, wellFormedItem it = true) →
      ∀ acc, processItems (some records) acc l =
        Except.ok (l.foldl (fun a it => addTotals a (contribItem records it)) acc) := by
  intro l
  induction l with
  | nil => intro _ acc; rfl
  | cons x xs ih =>
    intro h acc
    have hx := h x (by simp)
    rw [List.foldl_cons]
    simp only [processItems, stepItem_wf_ok records acc x hx]
    exact ih (fun it hit => h it (by simp [hit])) _

theorem foldl_addTotals_proj (p : Totals → Rat)
    (hp : ∀ a b, p (addTotals a b) = p a + p b) (g : MealItemDict → Totals) :
    ∀ (l : List MealItemDict) (acc : Totals),
      p (l.foldl (fun a it => addTotals a (g it)) acc) = p acc + (l.map (fun it => p (g it))).sum := by
  intro l
  induction l with
  | nil => intro acc; simp
  | cons it rest ih =>
    intro acc
    rw [List.foldl_cons, ih, List.map_cons, List.sum_cons, hp]
    ring

theorem contribItem_zero_of_unmatched (records : List FoodRecord) (it : MealItemDict)
    (name : String) (hn : it.item = some name) (hl : lookupExact records name = none) :
    contribItem records it = Totals.zero := by
  cases hq : pyFloat (qtyField it) with
  | error e => simp [contribItem, hn, hq]
  | ok q => simp [contribItem, hn, hq, contribution, hl]

/-! Claims C9, C4, C10, C8. -/

/-- C9: for every store path, reading the log when the store file is
absent or contains corrupt non-JSON content returns the empty sequence
and never raises (get_log is total and yields the empty list on both
degenerate file states). -/
theorem get_log_missing_or_corrupt (α : Type) :
    get_log (FileState.absent : FileState α) = [] ∧
      get_log (FileState.corrupt : FileState α) = [] :=
  ⟨rfl, rfl⟩

/-- C4: appending N entries sequentially to any store state and then
reading it returns the prior entries followed by exactly those N entries
in insertion order; the log length grows by N and every pre-existing
entry is still at its old position (no entry is rewritten). -/
theorem save_log_round_trip (α : Type) (fs : FileState α) (entries : List α) :
    get_log (entries.foldl save_log fs) = get_log fs ++ entries ∧
      (get_log (entries.foldl save_log fs)).length = (get_log fs).length + entries.length ∧
      ∀ i, i < (get_log fs).length →
        (get_log (entries.foldl save_log fs))[i]? = (get_log fs)[i]? := by
  refine ⟨get_log_foldl_save entries fs, ?_, ?_⟩
  · rw [get_log_foldl_save entries fs, List.length_append]
  · intro i hi
    rw [get_log_foldl_save entries fs, List.getElem?_append_left hi]

/-- C4 witness: two entries appended after a one-entry store read back in
order, and the pre-existing entry is untouched. -/
theorem save_log_round_trip_witness :
    get_log (([1, 2] : List Nat).foldl save_log (FileState.content [0])) = [0] ++ [1, 2] ∧
      (0 < (get_log (FileState.content ([0] : List Nat))).length ∧
        (get_log (([1, 2] : List Nat).foldl save_log (FileState.content [0])))[0]? =
          (get_log (FileState.content ([0] : List Nat)))[0]?) :=
  ⟨(save_log_round_trip Nat (FileState.content [0]) [1, 2]).1,
   by decide,
   (save_log_round_trip Nat (FileState.content [0]) [1, 2]).2.2 0 (by decide)⟩

/-- C10: the fail-soft skipping of log_meal applies only to names that
are present but unmatched: a request containing a meal item whose dict
has no item key makes the whole request raise (the run is an error, no
totals are returned), whatever the table, timestamp and store. -/
theorem log_meal_missing_item_key_fails (df : Option (List FoodRecord)) (now : String)
    (req : LogMealRequest) (store : FileState MealRow)
    (h : ∃ it ∈ req.meal_items, it.item = none) :
    ∃ e, log_meal_endpoint df now req store = Except.error e := by
  obtain ⟨it0, hmem, hnone⟩ := h
  obtain ⟨e, he⟩ := processItems_err_of_mem df it0
    (fun acc => stepItem_err_of_item_none df acc it0 hnone) req.meal_items hmem Totals.zero
  exact ⟨e, by simp [log_meal_endpoint, he]⟩

/-- C10 witness: a concrete request whose single item lacks the item key
fails. -/
theorem log_meal_missing_item_key_fails_witness :
    (∃ it ∈ [({ item := none, quantity := some (JVal.num 1) } : MealItemDict)], it.item = none) ∧
      ∃ e, log_meal_endpoint (some tableRice) ("t0")
        ⟨[], true, [{ item := none, quantity := some (JVal.num 1) }], some ("Your Meal")⟩
        FileState.absent = Except.error e :=
  ⟨⟨{ item := none, quantity := some (JVal.num 1) }, by simp, rfl⟩,
   log_meal_missing_item_key_fails (some tableRice) ("t0")
     ⟨[], true, [{ item := none, quantity := some (JVal.num 1) }], some ("Your Meal")⟩
     FileState.absent ⟨{ item := none, quantity := some (JVal.num 1) }, by simp, rfl⟩⟩

/-- C8: export_history on an empty meal history fails with 404; on any
non-empty history it returns the CSV table whose header is the fixed
8-column order, one row per stored entry, regardless of which fields the
entries contain. -/
theorem export_history_spec (history : List MealRow) :
    (history = [] → export_history_endpoint history =
        Except.error ⟨404, "No meal history available."⟩) ∧
      (history ≠ [] → ∃ rows, export_history_endpoint history = Except.ok (expected_cols, rows) ∧
        rows.length = history.length) ∧
      expected_cols = ["timestamp", "food_name", "quantity", "total_calories", "total_protein",
        "total_fat", "total_carbs", "advice"] ∧
      expected_cols.length = 8 := by
  refine ⟨?_, ?_, rfl, rfl⟩
  · intro h; rw [h]; rfl
  · intro h
    cases history with
    | nil => exact absurd rfl h
    | cons r rest =>
      exact ⟨_, rfl, by simp [List.length_map]⟩

/-- C8 witness: a one-entry history whose entry has none of the expected
fields still exports with the fixed 8-column header. -/
theorem export_history_spec_witness :
    ([[(("foo" : String), JVal.str ("x"))]] : List MealRow) ≠ [] ∧
      ∃ rows, export_history_endpoint [[(("foo" : String), JVal.str ("x"))]] =
        Except.ok (expected_cols, rows) ∧
        rows.length = ([[(("foo" : String), JVal.str ("x"))]] : List MealRow).length :=
  ⟨by simp, (export_history_spec [[(("foo" : String), JVal.str ("x"))]]).2.1 (by simp)⟩

/-! Claims C1, C2, C3 about the log_meal endpoint. -/

/-- C1: the error policy of meal aggregation is asymmetric.  Fail-soft
half: when every item has an item name and a float-convertible quantity,
the request succeeds and an item whose name has no exact case-insensitive
match contributes the zero total (the response totals are the running sum
of the per-item contributions).  Fail-fast half: any item whose quantity
does not convert makes the whole request an error, with no totals
returned. -/
theorem log_meal_error_asymmetry (records : List FoodRecord) (now : String)
    (req : LogMealRequest) (store : FileState MealRow) :
    ((∀ it ∈ req.meal_items, wellFormedItem it = true) →
      ∃ resp store2,
        log_meal_endpoint (some records) now req store = Except.ok (resp, store2) ∧
        Totals.mk resp.total_calories resp.total_protein resp.total_fat resp.total_carbs =
          req.meal_items.foldl (fun a it => addTotals a (contribItem records it)) Totals.zero ∧
        ∀ it ∈ req.meal_items, ∀ name, it.item = some name → lookupExact records name = none →
          contribItem records it = Totals.zero) ∧
    ((∃ it ∈ req.meal_items, ∃ e, pyFloat (qtyField it) = Except.error e) →
      ∃ e2, log_meal_endpoint (some records) now req store = Except.error e2) := by
  constructor
  · intro hwf
    have hp := processItems_wf_ok records req.meal_items hwf Totals.zero
    have hlog : log_meal_endpoint (some records) now req store =
        Except.ok (mkLogMealOk req
          (req.meal_items.foldl (fun a it => addTotals a (contribItem records it)) Totals.zero)
          store now) := by
      simp [log_meal_endpoint, hp]
    refine ⟨_, _, hlog, rfl, ?_⟩
    intro it hit name hn hl
    exact contribItem_zero_of_unmatched records it name hn hl
  · intro h
    obtain ⟨it0, hmem, e, he⟩ := h
    obtain ⟨e2, he2⟩ := processItems_err_of_mem (some records) it0
      (fun acc => ⟨e, stepItem_err_of_bad_qty (some records) acc it0 e he⟩)
      req.meal_items hmem Totals.zero
    exact ⟨e2, by simp [log_meal_endpoint, he2]⟩

/-- C1 witness: a well-formed request whose only item name is unmatched
succeeds with the zero-contribution sum, and a request whose quantity is
the string abc fails as a whole. -/
theorem log_meal_error_asymmetry_witness :
    ((∀ it ∈ ([{ item := some ("noodles"), quantity := some (JVal.num 2) }] : List MealItemDict),
        wellFormedItem it = true) ∧
      (∃ resp store2,
        log_meal_endpoint (some tableRice) ("t0")
          ⟨[], true, [{ item := some ("noodles"), quantity := some (JVal.num 2) }],
            some ("Your Meal")⟩ FileState.absent = Except.ok (resp, store2) ∧
        Totals.mk resp.total_calories resp.total_protein resp.total_fat resp.total_carbs =
          ([{ item := some ("noodles"), quantity := some (JVal.num 2) }] : List MealItemDict).foldl
            (fun a it => addTotals a (contribItem tableRice it)) Totals.zero ∧
        ∀ it ∈ ([{ item := some ("noodles"), quantity := some (JVal.num 2) }] : List MealItemDict),
          ∀ name, it.item = some name → lookupExact tableRice name = none →
            contribItem tableRice it = Totals.zero)) ∧
      ((∃ it ∈ ([{ item := some ("rice"), quantity := some (JVal.str ("abc")) }] :
          List MealItemDict), ∃ e, pyFloat (qtyField it) = Except.error e) ∧
        ∃ e2, log_meal_endpoint (some tableRice) ("t0")
          ⟨[], true, [{ item := some ("rice"), quantity := some (JVal.str ("abc")) }],
            some ("Your Meal")⟩ FileState.absent = Except.error e2) := by
  refine ⟨⟨by decide, (log_meal_error_asymmetry tableRice ("t0")
      ⟨[], true, [{ item := some ("noodles"), quantity := some (JVal.num 2) }],
        some ("Your Meal")⟩ FileState.absent).1 (by decide)⟩, ?_, ?_⟩
  · exact ⟨{ item := some ("rice"), quantity := some (JVal.str ("abc")) }, by simp,
      "ValueError: could not convert string to float", rfl⟩
  · exact (log_meal_error_asymmetry tableRice ("t0")
      ⟨[], true, [{ item := some ("rice"), quantity := some (JVal.str ("abc")) }],
        some ("Your Meal")⟩ FileState.absent).2
      ⟨{ item := some ("rice"), quantity := some (JVal.str ("abc")) }, by simp,
        "ValueError: could not convert string to float", rfl⟩

/-- C2: on a request whose items are all well-formed, aggregation
succeeds and each total field is the sum, over the items, of the macro
field of the exactly-matched record multiplied by the item quantity; a
matched item contributes exactly its record scaled by its quantity, and
an unmatched item name contributes zero (and nothing raises). -/
theorem log_meal_totals_spec (records : List FoodRecord) (now : String)
    (req : LogMealRequest) (store : FileState MealRow)
    (hwf : ∀ it ∈ req.meal_items, wellFormedItem it = true) :
    ∃ resp store2,
      log_meal_endpoint (some records) now req store = Except.ok (resp, store2) ∧
      resp.total_calories = (req.meal_items.map (fun it => (contribItem records it).calories)).sum ∧
      resp.total_protein = (req.meal_items.map (fun it => (contribItem records it).protein)).sum ∧
      resp.total_fat = (req.meal_items.map (fun it => (contribItem records it).fat)).sum ∧
      resp.total_carbs = (req.meal_items.map (fun it => (contribItem records it).carbs)).sum ∧
      (∀ it ∈ req.meal_items, ∀ name q fd, it.item = some name →
        pyFloat (qtyField it) = Except.ok q → lookupExact records name = some fd →
        contribItem records it =
          ⟨fd.calories * q, fd.protein_g * q, fd.fat_g * q, fd.carbs_g * q⟩) ∧
      (∀ it ∈ req.meal_items, ∀ name, it.item = some name → lookupExact records name = none →
        contribItem records it = Totals.zero) := by
  have hp := processItems_wf_ok records req.meal_items hwf Totals.zero
  have hlog : log_meal_endpoint (some records) now req store =
      Except.ok (mkLogMealOk req
        (req.meal_items.foldl (fun a it => addTotals a (contribItem records it)) Totals.zero)
        store now) := by
    simp [log_meal_endpoint, hp]
  refine ⟨_, _, hlog, ?_, ?_, ?_, ?_, ?_, ?_⟩
  · show (req.meal_items.foldl (fun a it => addTotals a (contribItem records it))
      Totals.zero).calories = _
    rw [foldl_addTotals_proj (fun t => t.calories) (fun a b => rfl) (contribItem records)
      req.meal_items Totals.zero]
    simp [Totals.zero]
  · show (req.meal_items.foldl (fun a it => addTotals a (contribItem records it))
      Totals.zero).protein = _
    rw [foldl_addTotals_proj (fun t => t.protein) (fun a b => rfl) (contribItem records)
      req.meal_items Totals.zero]
    simp [Totals.zero]
  · show (req.meal_items.foldl (fun a it => addTotals a (contribItem records it))
      Totals.zero).fat = _
    rw [foldl_addTotals_proj (fun t => t.fat) (fun a b => rfl) (contribItem records)
      req.meal_items Totals.zero]
    simp [Totals.zero]
  · show (req.meal_items.foldl (fun a it => addTotals a (contribItem records it))
      Totals.zero).carbs = _
    rw [foldl_addTotals_proj (fun t => t.carbs) (fun a b => rfl) (contribItem records)
      req.meal_items Totals.zero]
    simp [Totals.zero]
  · intro it hit name q fd hn hq hl
    simp [contribItem, hn, hq, contribution, hl]
  · intro it hit name hn hl
    exact contribItem_zero_of_unmatched records it name hn hl

/-- C2 witness: aggregating one rice item of quantity 2 against a table
where rice has 130 calories yields total calories 260. -/
theorem log_meal_totals_spec_witness :
    (∀ it ∈ ([{ item := some ("rice"), quantity := some (JVal.num 2) }] : List MealItemDict),
        wellFormedItem it = true) ∧
      (∃ resp store2,
        log_meal_endpoint (some tableRice) ("t0")
          ⟨[], true, [{ item := some ("rice"), quantity := some (JVal.num 2) }],
            some ("Your Meal")⟩ FileState.absent = Except.ok (resp, store2) ∧
        resp.total_calories =
          (([{ item := some ("rice"), quantity := some (JVal.num 2) }] : List MealItemDict).map
            (fun it => (contribItem tableRice it).calories)).sum) ∧
      (([{ item := some ("rice"), quantity := some (JVal.num 2) }] : List MealItemDict).map
        (fun it => (contribItem tableRice it).calories)).sum = 260 := by
  obtain ⟨resp, store2, hlog, hcal, hrest⟩ :=
    log_meal_totals_spec tableRice ("t0")
      ⟨[], true, [{ item := some ("rice"), quantity := some (JVal.num 2) }], some ("Your Meal")⟩
      FileState.absent (by decide)
  have hc : contribItem tableRice { item := some ("rice"), quantity := some (JVal.num 2) } =
      ⟨130 * 2, 3 * 2, 1 * 2, 28 * 2⟩ := rfl
  refine ⟨by decide, ⟨resp, store2, hlog, hcal⟩, ?_⟩
  rw [List.map_cons, List.map_nil, List.sum_cons, List.sum_nil, hc]
  norm_num

/-- C3: on every successful log_meal run, quick_check true leaves the
store untouched (the meal history length is unchanged) while the same
totals response is still produced; quick_check false grows the meal
history length by exactly one; and the response does not depend on the
quick_check flag at all. -/
theorem log_meal_quick_check_frame (df : Option (List FoodRecord)) (now : String)
    (req : LogMealRequest) (store : FileState MealRow) (resp : LogMealResponse)
    (store2 : FileState MealRow)
    (h : log_meal_endpoint df now req store = Except.ok (resp, store2)) :
    (req.quick_check = true → store2 = store ∧
      (get_meal_history_endpoint store2).length = (get_meal_history_endpoint store).length) ∧
    (req.quick_check = false →
      (get_meal_history_endpoint store2).length = (get_meal_history_endpoint store).length + 1) ∧
    (∀ b : Bool, ∃ resp2 store3,
      log_meal_endpoint df now { req with quick_check := b } store = Except.ok (resp2, store3) ∧
      resp2 = resp) := by
  cases hp : processItems df Totals.zero req.meal_items with
  | error e => simp [log_meal_endpoint, hp] at h
  | ok t =>
    simp only [log_meal_endpoint, hp] at h
    injection h with h2
    have hresp : resp = (mkLogMealOk req t store now).1 := by rw [h2]
    have hstore : store2 = (mkLogMealOk req t store now).2 := by rw [h2]
    refine ⟨?_, ?_, ?_⟩
    · intro hq
      have hss : store2 = store := by rw [hstore]; simp [mkLogMealOk, hq]
      exact ⟨hss, by rw [hss]⟩
    · intro hq
      rw [hstore]
      simp [mkLogMealOk, hq, get_meal_history_endpoint]
    · intro b
      refine ⟨(mkLogMealOk { req with quick_check := b } t store now).1,
        (mkLogMealOk { req with quick_check := b } t store now).2, ?_, ?_⟩
      · have hp2 : processItems df Totals.zero ({ req with quick_check := b }).meal_items =
            Except.ok t := hp
        simp [log_meal_endpoint, hp2]
      · rw [hresp]; rfl

/-- C3 witness: a concrete empty-items request with quick_check false
grows the meal history length from 0 to 1. -/
theorem log_meal_quick_check_frame_witness :
    log_meal_endpoint (some tableRice) ("t0") ⟨[], false, [], some ("Your Meal")⟩
        FileState.absent =
      Except.ok
        ((mkLogMealOk ⟨[], false, [], some ("Your Meal")⟩ Totals.zero FileState.absent ("t0")).1,
         (mkLogMealOk ⟨[], false, [], some ("Your Meal")⟩ Totals.zero FileState.absent ("t0")).2) ∧
      (get_meal_history_endpoint
          (mkLogMealOk ⟨[], false, [], some ("Your Meal")⟩ Totals.zero FileState.absent
            ("t0")).2).length =
        (get_meal_history_endpoint (FileState.absent : FileState MealRow)).length + 1 :=
  ⟨rfl,
   (log_meal_quick_check_frame (some tableRice) ("t0") ⟨[], false, [], some ("Your Meal")⟩
     FileState.absent _ _ rfl).2.1 rfl⟩

/-! Helper lemmas about the fuzzy lookup. -/

theorem extractOneAux_spec (score : String → String → Nat) (q : String) :
    ∀ (cs : List String) (best : String × Nat), best.2 = score q best.1 →
      (extractOneAux score q best cs = best ∨ (extractOneAux score q best cs).1 ∈ cs) ∧
      (extractOneAux score q best cs).2 = score q (extractOneAux score q best cs).1 ∧
      best.2 ≤ (extractOneAux score q best cs).2 ∧
      ∀ c ∈ cs, score q c ≤ (extractOneAux score q best cs).2 := by
  intro cs
  induction cs with
  | nil =>
    intro best hb
    exact ⟨Or.inl rfl, hb, le_refl _, by intro c hc; cases hc⟩
  | cons c cs ih =>
    intro best hb
    by_cases hlt : best.2 < score q c
    · have hb2 : ((c, score q c) : String × Nat).2 = score q ((c, score q c) : String × Nat).1 :=
        rfl
      obtain ⟨hmem, hsc, hle, hall⟩ := ih (c, score q c) hb2
      have hred : extractOneAux score q best (c :: cs) = extractOneAux score q (c, score q c) cs :=
        by simp [extractOneAux, hlt]
      refine ⟨?_, ?_, ?_, ?_⟩
      · rw [hred]
        rcases hmem with h | h
        · exact Or.inr (by rw [h]; exact List.mem_cons_self c cs)
        · exact Or.inr (List.mem_cons_of_mem c h)
      · rw [hred]; exact hsc
      · rw [hred]; exact le_trans (le_of_lt hlt) hle
      · intro d hd
        rw [hred]
        rcases List.mem_cons.1 hd with h | h
        · rw [h]; exact hle
        · exact hall d h
    · obtain ⟨hmem, hsc, hle, hall⟩ := ih best hb
      have hred : extractOneAux score q best (c :: cs) = extractOneAux score q best cs := by
        simp [extractOneAux, hlt]
      refine ⟨?_, ?_, ?_, ?_⟩
      · rw [hred]
        rcases hmem with h | h
        · exact Or.inl h
        · exact Or.inr (List.mem_cons_of_mem c h)
      · rw [hred]; exact hsc
      · rw [hred]; exact hle
      · intro d hd
        rw [hred]
        rcases List.mem_cons.1 hd with h | h
        · rw [h]; exact le_trans (le_of_not_lt hlt) hle
        · exact hall d h

theorem extractOne_spec (score : String → String → Nat) (q : String) (choices : List String)
    (hne : choices ≠ []) :
    ∃ bs : String × Nat, extractOne score q choices = some bs ∧ bs.1 ∈ choices ∧
      bs.2 = score q bs.1 ∧ ∀ c ∈ choices, score q c ≤ bs.2 := by
  cases choices with
  | nil => exact absurd rfl hne
  | cons c cs =>
    obtain ⟨hmem, hsc, hle, hall⟩ := extractOneAux_spec score q cs (c, score q c) rfl
    refine ⟨extractOneAux score q (c, score q c) cs, rfl, ?_, hsc, ?_⟩
    · rcases hmem with h | h
      · rw [h]; exact List.mem_cons_self c cs
      · exact List.mem_cons_of_mem c h
    · intro d hd
      rcases List.mem_cons.1 hd with h | h
      · rw [h]; exact hle
      · exact hall d h

theorem find_lower_of_mem (records : List FoodRecord) (b : String)
    (hb : b ∈ records.map (fun r => r.food_item_lower)) :
    ∃ r, records.find? (fun r => r.food_item_lower == b) = some r ∧ r.food_item_lower = b := by
  have hex : ∃ x, x ∈ records ∧ (fun r => r.food_item_lower == b) x := by
    obtain ⟨r, hr, he⟩ := List.mem_map.1 hb
    exact ⟨r, hr, by simp [he]⟩
  have hsome := List.find?_isSome.2 hex
  obtain ⟨r, hr⟩ := Option.isSome_iff_exists.1 hsome
  have hp := List.find?_some hr
  exact ⟨r, hr, by simpa using hp⟩

theorem find_food_fuzzy_run (score : String → String → Nat) (records : List FoodRecord)
    (q : String) (threshold : Nat) (bs : String × Nat) (hq : q ≠ "")
    (hex : extractOne score (normalizeQuery q) (records.map (fun r => r.food_item_lower)) =
      some bs)
    (hmem : bs.1 ∈ records.map (fun r => r.food_item_lower)) :
    (threshold ≤ bs.2 →
      ∃ r, records.find? (fun r => r.food_item_lower == bs.1) = some r ∧
        r.food_item_lower = bs.1 ∧
        find_food_in_db_fuzzy score (some records) q threshold = Except.ok (some r)) ∧
    (bs.2 < threshold →
      find_food_in_db_fuzzy score (some records) q threshold = Except.ok none) := by
  obtain ⟨b, s⟩ := bs
  obtain ⟨r0, hr0, hr0b⟩ := find_lower_of_mem records b hmem
  constructor
  · intro hth
    exact ⟨r0, hr0, hr0b, by simp [find_food_in_db_fuzzy, hq, hex, hth, hr0]⟩
  · intro hlt
    have hnth : ¬ threshold ≤ s := not_le.2 hlt
    simp [find_food_in_db_fuzzy, hq, hex, hnth]

/-! Claims C5, C6, C7 about the fuzzy resolver and the suggest endpoint. -/

/-- C5: on a loaded non-empty table and a non-empty query, the fuzzy
resolver normalizes the query (lowercase, strip, underscores to spaces),
scores it against every known lowered food name, picks the first
highest-scoring name, and returns that name's record exactly when the
best score reaches the threshold; below the threshold it returns
NotFound (None).  The scorer is the abstract similarity metric of
thefuzz; the Python default threshold is 85 and the property holds for
every threshold. -/
theorem find_food_in_db_fuzzy_spec (score : String → String → Nat)
    (records : List FoodRecord) (q : String) (threshold : Nat)
    (hne : records ≠ []) (hq : q ≠ "") :
    ∃ bs : String × Nat,
      extractOne score (normalizeQuery q) (records.map (fun r => r.food_item_lower)) = some bs ∧
      bs.1 ∈ records.map (fun r => r.food_item_lower) ∧
      bs.2 = score (normalizeQuery q) bs.1 ∧
      (∀ c ∈ records.map (fun r => r.food_item_lower), score (normalizeQuery q) c ≤ bs.2) ∧
      (threshold ≤ bs.2 →
        ∃ r, records.find? (fun r => r.food_item_lower == bs.1) = some r ∧
          r.food_item_lower = bs.1 ∧
          find_food_in_db_fuzzy score (some records) q threshold = Except.ok (some r)) ∧
      (bs.2 < threshold →
        find_food_in_db_fuzzy score (some records) q threshold = Except.ok none) := by
  have hmapne : records.map (fun r => r.food_item_lower) ≠ [] := by
    cases records with
    | nil => exact absurd rfl hne
    | cons r rs => simp
  obtain ⟨bs, hex, hmem, hsc, hall⟩ :=
    extractOne_spec score (normalizeQuery q) (records.map (fun r => r.food_item_lower)) hmapne
  obtain ⟨h1, h2⟩ := find_food_fuzzy_run score records q threshold bs hq hex hmem
  exact ⟨bs, hex, hmem, hsc, hall, h1, h2⟩

/-- C5 witness: with the equality scorer and the one-row rice table, the
query RICE resolves to the rice record at threshold 85. -/
theorem find_food_in_db_fuzzy_spec_witness :
    (tableRice ≠ [] ∧ ("RICE" : String) ≠ "") ∧
      ∃ bs : String × Nat,
        extractOne eqScore (normalizeQuery ("RICE"))
          (tableRice.map (fun r => r.food_item_lower)) = some bs ∧
        bs.1 ∈ tableRice.map (fun r => r.food_item_lower) ∧
        bs.2 = eqScore (normalizeQuery ("RICE")) bs.1 ∧
        (∀ c ∈ tableRice.map (fun r => r.food_item_lower),
          eqScore (normalizeQuery ("RICE")) c ≤ bs.2) ∧
        (85 ≤ bs.2 →
          ∃ r, tableRice.find? (fun r => r.food_item_lower == bs.1) = some r ∧
            r.food_item_lower = bs.1 ∧
            find_food_in_db_fuzzy eqScore (some tableRice) ("RICE") 85 = Except.ok (some r)) ∧
        (bs.2 < 85 →
          find_food_in_db_fuzzy eqScore (some tableRice) ("RICE") 85 = Except.ok none) :=
  ⟨⟨by decide, by decide⟩,
   find_food_in_db_fuzzy_spec eqScore tableRice ("RICE") 85 (by decide) (by decide)⟩

/-- C6 counterexample: the string consisting of rice with surrounding
spaces is a whitespace variant of the known name rice (stripping and
lowercasing it gives exactly the stored lowered name), yet the meal
aggregator exact lookup, which lowercases but does not strip, returns no
record for it. -/
theorem exact_lookup_whitespace_cex :
    riceRec.food_item_lower = "rice" ∧
      pyStrip (pyLower (" rice ")) = "rice" ∧
      lookupExact tableRice (" rice ") = none :=
  ⟨rfl, by decide, by decide⟩

/-- C6 (amended): for a known food name, any case variant is matched by
the meal aggregator exact lookup (which lowercases but does not strip),
and the fuzzy resolver additionally normalizes surrounding whitespace
and underscores, so a variant that normalizes to the stored lowered name
resolves to the record whenever the scorer gives identical strings the
top score 100, no other table name ties at 100, and the threshold is at
most 100; but a variant whose lowercased form differs from every stored
lowered name (in particular a surrounding-whitespace variant) is missed
by the exact lookup. -/
theorem lookup_variant_amended (records : List FoodRecord) (r : FoodRecord)
    (score : String → String → Nat) (threshold : Nat)
    (hcanon : records.find? (fun x => x.food_item_lower == r.food_item_lower) = some r) :
    (∀ v : String, pyLower v = r.food_item_lower → lookupExact records v = some r) ∧
    (∀ v : String, v ≠ "" → normalizeQuery v = r.food_item_lower → r ∈ records →
      score r.food_item_lower r.food_item_lower = 100 →
      (∀ c ∈ records.map (fun x => x.food_item_lower), score r.food_item_lower c ≤ 100) →
      (∀ c ∈ records.map (fun x => x.food_item_lower),
        score r.food_item_lower c = 100 → c = r.food_item_lower) →
      threshold ≤ 100 →
      find_food_in_db_fuzzy score (some records) v threshold = Except.ok (some r)) ∧
    (∀ v : String, (∀ x ∈ records, x.food_item_lower ≠ pyLower v) →
      lookupExact records v = none) := by
  refine ⟨?_, ?_, ?_⟩
  · intro v hv
    simp only [lookupExact, hv]
    exact hcanon
  · intro v hv hnorm hr h100 hbound huniq hth
    have hmapne : records.map (fun x => x.food_item_lower) ≠ [] := by
      cases records with
      | nil => cases hr
      | cons a rs => simp
    obtain ⟨bs, hex, hmem, hsc, hall⟩ :=
      extractOne_spec score (normalizeQuery v) (records.map (fun x => x.food_item_lower)) hmapne
    have hrlow : r.food_item_lower ∈ records.map (fun x => x.food_item_lower) :=
      List.mem_map_of_mem (fun x => x.food_item_lower) hr
    have hub : bs.2 ≤ 100 := by
      rw [hsc, hnorm]
      exact hbound bs.1 hmem
    have hlb : 100 ≤ bs.2 := by
      have := hall r.food_item_lower hrlow
      rw [hnorm, h100] at this
      exact this
    have hb100 : bs.2 = 100 := le_antisymm hub hlb
    have hbs1 : bs.1 = r.food_item_lower := by
      refine huniq bs.1 hmem ?_
      rw [← hnorm, ← hsc, hb100]
    obtain ⟨hpos, hneg⟩ := find_food_fuzzy_run score records v threshold bs hv hex hmem
    obtain ⟨r2, hfind, hlow, hres⟩ := hpos (by rw [hb100]; exact hth)
    rw [hbs1] at hfind
    rw [hcanon] at hfind
    injection hfind with hr2
    rw [hr2]
    exact hres
  · intro v hx
    rw [lookupExact, List.find?_eq_none]
    intro x hxm
    simp [hx x hxm]

/-- C6 witness: with the one-row rice table and the equality scorer, the
case variant RICE is matched by the exact lookup, the whitespace variant
resolves through the fuzzy path, and the whitespace variant is missed by
the exact lookup. -/
theorem lookup_variant_amended_witness :
    tableRice.find? (fun x => x.food_item_lower == riceRec.food_item_lower) = some riceRec ∧
      lookupExact tableRice ("RICE") = some riceRec ∧
      find_food_in_db_fuzzy eqScore (some tableRice) (" Rice ") 85 = Except.ok (some riceRec) ∧
      lookupExact tableRice (" rice ") = none := by
  have h := lookup_variant_amended tableRice riceRec eqScore 85 (by decide)
  exact ⟨by decide, h.1 ("RICE") (by decide),
    h.2.1 (" Rice ") (by decide) (by decide) (by decide) (by decide) (by decide) (by decide)
      (by decide),
    h.2.2 (" rice ") (by decide)⟩

/-- C7 counterexample: on an empty query the suggest endpoint does not
return an empty suggestion list; it fails the request with a 400
validation error. -/
theorem suggest_empty_query_cex :
    suggest_food_endpoint eqScore (some tableRice) ("") =
      Except.error ⟨400, "Food name is required."⟩ := rfl

/-- C7 (amended): an empty query or an absent table is tolerated by the
fuzzy resolver, which returns NotFound (None); but the suggest endpoint
rejects an empty query or an absent table with a 400 validation error
instead of returning an empty list; a loaded-but-empty table yields the
empty suggestion list from suggest, while the fuzzy resolver raises on
it (unpacking the None of extractOne). -/
theorem empty_inputs_amended :
    (∀ (score : String → String → Nat) (df : Option (List FoodRecord)) (threshold : Nat),
      find_food_in_db_fuzzy score df ("") threshold = Except.ok none) ∧
    (∀ (score : String → String → Nat) (q : String) (threshold : Nat),
      find_food_in_db_fuzzy score none q threshold = Except.ok none) ∧
    (∀ (score : String → String → Nat) (q : String),
      suggest_food_endpoint score none q = Except.error ⟨400, "Food name is required."⟩) ∧
    (∀ (score : String → String → Nat) (df : Option (List FoodRecord)),
      suggest_food_endpoint score df ("") = Except.error ⟨400, "Food name is required."⟩) ∧
    (∀ (score : String → String → Nat) (q : String), q ≠ "" →
      suggest_food_endpoint score (some ([] : List FoodRecord)) q = Except.ok []) ∧
    (∀ (score : String → String → Nat) (q : String) (threshold : Nat), q ≠ "" →
      ∃ e, find_food_in_db_fuzzy score (some ([] : List FoodRecord)) q threshold =
        Except.error e) := by
  refine ⟨?_, ?_, ?_, ?_, ?_, ?_⟩
  · intro score df threshold
    cases df with
    | none => rfl
    | some records => simp [find_food_in_db_fuzzy]
  · intro score q threshold
    rfl
  · intro score q
    rfl
  · intro score df
    cases df with
    | none => rfl
    | some records => simp [suggest_food_endpoint]
  · intro score q hq
    simp [suggest_food_endpoint, hq, extractMany, sortDesc, scoreAll]
  · intro score q threshold hq
    refine ⟨"TypeError: cannot unpack non-iterable NoneType object", ?_⟩
    simp [find_food_in_db_fuzzy, hq, extractOne]

/-- C7 witness: a non-empty query against the loaded-but-empty table
yields the empty suggestion list from suggest and an error from the
fuzzy resolver. -/
theorem empty_inputs_amended_witness :
    (("x" : String) ≠ "") ∧
      suggest_food_endpoint eqScore (some ([] : List FoodRecord)) ("x") = Except.ok [] ∧
      ∃ e, find_food_in_db_fuzzy eqScore (some ([] : List FoodRecord)) ("x") 85 =
        Except.error e :=
  ⟨by decide, empty_inputs_amended.2.2.2.2.1 eqScore ("x") (by decide),
   empty_inputs_amended.2.2.2.2.2 eqScore ("x") 85 (by decide)⟩
